import Mathlib

/-!
Verification of the Task-assignment-project view-state synchronizer.

Shallow embedding of the client-side state logic of the repository:
`src/components/dashboard/notifications-popover.tsx` (notification feed),
the task status/delete handlers in `src/unnamed/part_000` (TaskList) and
`src/context/auth-context.tsx` (TaskPage), and the dashboard projection
`upcomingTasks` in `src/unnamed/part_002`.

Remote calls to the Data Service (supabase) are modelled by passing the
outcome of each call as an explicit argument; React `setX` state updates
become explicit state passing on a `SyncState` record.  ISO timestamp
strings compared through `parseISO(...).getTime()` are modelled as `Nat`
time values.
-/

namespace TaskApp

/-- Notification record, as declared in `notifications-popover.tsx` lines 14-21. -/
structure Notification where
  id : String
  message : String
  read : Bool
  created_at : String
  type : String
  task_id : Option String
deriving DecidableEq, Repr

/-- The authenticated user, from `auth-context.tsx` (`type User`); `name?` may be
absent, modelled as the empty string (falsy in the `user.name || 'Someone'` check). -/
structure User where
  id : String
  email : String
  name : String
  role : String
deriving DecidableEq, Repr

/-- Outcome of one remote Data Service call (`{ error }` from supabase). -/
inductive RemoteResult where
  | ok
  | error
deriving DecidableEq, Repr

/-- Local state of the notifications popover: the `notifications` and
`unreadCount` `useState` cells. `unreadCount` is a JS number, modelled as `Int`
so that the `Math.max(0, prev - 1)` clamp is meaningful. -/
structure SyncState where
  notifications : List Notification
  unreadCount : Int
deriving DecidableEq, Repr

/-- The initial `useState` values: empty list, count 0. -/
def initialState : SyncState := ⟨[], 0⟩

/-- `data.filter(n => !n.read).length`: the unread count recomputed by scanning
a collection (exactly the expression used by `fetchNotifications` line 47). -/
def countUnread (l : List Notification) : Int :=
  ((l.filter fun n => !n.read).length : Nat)

/-- The query built by `fetchNotifications` lines 36-41: table, user filter,
ordering direction on `created_at`, and row limit. -/
structure QueryRequest where
  table : String
  filterUserIdEq : String
  orderByCreatedAtAscending : Bool
  rowLimit : Nat
deriving DecidableEq, Repr

/-- The request issued by `fetchNotifications`:
`.from('notifications').select('*').eq('user_id', user.id)
.order('created_at', { ascending: false }).limit(20)`. -/
def fetchRequest (u : User) : QueryRequest :=
  { table := "notifications"
    filterUserIdEq := u.id
    orderByCreatedAtAscending := false
    rowLimit := 20 }

/-- Response of the Data Service to the fetch query. -/
inductive FetchResponse where
  | ok (data : List Notification)
  | error
deriving DecidableEq, Repr

/-- Branch taken by `fetchNotifications`: early return on missing user
(the spec's `NotAuthenticated`), caught service error (logged), or success. -/
inductive FetchOutcome where
  | notAuthenticated
  | serviceError
  | ok
deriving DecidableEq, Repr

/-- `fetchNotifications` (lines 32-54): `if (!user) return;` else query; on error
`console.error` and leave state intact; on success replace the whole collection
and recompute the unread count by scanning. -/
def fetchNotifications (user : Option User) (resp : FetchResponse) (s : SyncState) :
    SyncState × FetchOutcome :=
  match user with
  | none => (s, .notAuthenticated)
  | some _ =>
    match resp with
    | .error => (s, .serviceError)
    | .ok data =>
      ({ notifications := data, unreadCount := countUnread data }, .ok)

/-- The per-record update `n.id === notificationId ? { ...n, read: true } : n`
applied by `markAsRead` line 91-93. -/
def markReadFn (notificationId : String) (n : Notification) : Notification :=
  if n.id == notificationId then { n with read := true } else n

/-- `markAsRead` (lines 80-99): the remote update runs first; `if (error) throw`
jumps to the catch (log only) BEFORE any local mutation, so on `error` the
state is returned unchanged.  On success the collection is mapped through
`markReadFn` and the count becomes `Math.max(0, prev - 1)`. -/
def markAsRead (notificationId : String) (resp : RemoteResult) (s : SyncState) :
    SyncState :=
  match resp with
  | .error => s
  | .ok =>
    { notifications := s.notifications.map (markReadFn notificationId)
      unreadCount := max 0 (s.unreadCount - 1) }

/-- `markAllAsRead` (lines 102-120): early return with no user; the remote update
runs first, and only on success every record is set read and the count zeroed. -/
def markAllAsRead (user : Option User) (resp : RemoteResult) (s : SyncState) :
    SyncState :=
  match user with
  | none => s
  | some _ =>
    match resp with
    | .error => s
    | .ok =>
      { notifications := s.notifications.map fun n => { n with read := true }
        unreadCount := 0 }

/-- The realtime INSERT subscription handler (lines 67-70):
`setNotifications(prev => [payload.new, ...prev]); setUnreadCount(prev => prev + 1)`. -/
def applyRemoteInsert (r : Notification) (s : SyncState) : SyncState :=
  { notifications := r :: s.notifications
    unreadCount := s.unreadCount + 1 }

/-- A local mutation of the popover state (used for the C1 invariant claim):
`markAsRead` with the given remote outcome, or `markAllAsRead`. -/
inductive LocalOp where
  | lMarkRead (notificationId : String) (resp : RemoteResult)
  | lMarkAll (resp : RemoteResult)
deriving DecidableEq, Repr

/-- Apply one local mutation for the logged-in user `u`. -/
def applyLocalOp (u : User) : LocalOp → SyncState → SyncState
  | .lMarkRead nid resp, s => markAsRead nid resp s
  | .lMarkAll resp, s => markAllAsRead (some u) resp s

/-- Apply a sequence of local mutations in order. -/
def applyLocalOps (u : User) : List LocalOp → SyncState → SyncState
  | [], s => s
  | o :: os, s => applyLocalOps u os (applyLocalOp u o s)

/-- The derived-count invariant of the spec: the stored `unreadCount` equals the
count recomputed by scanning the collection. -/
def unreadInv (s : SyncState) : Prop :=
  s.unreadCount = countUnread s.notifications

/-- Task record, restricted to the fields the verified handlers read:
`id`, `title`, `status`, `created_by`, `assigned_to`, `due_date`.
`due_date` is an ISO string parsed with `parseISO(...)`; its time value is
modelled as `Option Nat`. -/
structure Task where
  id : String
  title : String
  status : String
  created_by : String
  assigned_to : Option String
  due_date : Option Nat
deriving DecidableEq, Repr

/-- Row inserted into the `notifications` table by `updateTaskStatus`
(TaskList lines 355-373 / TaskPage lines 718-735). -/
structure NotificationInsert where
  user_id : String
  message : String
  type : String
  read : Bool
  task_id : Option String
  created_at : String
deriving DecidableEq, Repr

/-- The message built for a completion: `user.name || 'Someone'` followed by
`completed the task "title"`. -/
def completionMessage (user : User) (taskTitle : String) : String :=
  (if user.name == "" then "Someone" else user.name)
    ++ " completed the task \"" ++ taskTitle ++ "\""

/-- `updateTaskStatus` (TaskList, `src/unnamed/part_000` lines 340-399), projected
onto its notification-creation effect: if the remote status update fails, the
throw skips everything; on success, when the new status is `'completed'`, the
task is looked up with `tasks.find(t => t.id === taskId)` and, when
`task && task.created_by && task.created_by !== user.id`, exactly one
notification row is inserted for the creator.  `now` is
`new Date().toISOString()`. -/
def updateTaskStatus (user : User) (tasks : List Task) (taskId status now : String)
    (updateResult : RemoteResult) : List NotificationInsert :=
  match updateResult with
  | .error => []
  | .ok =>
    if status == "completed" then
      match tasks.find? fun t => t.id == taskId with
      | some task =>
        if task.created_by != "" && task.created_by != user.id then
          [{ user_id := task.created_by
             message := completionMessage user task.title
             type := "task_completed"
             read := false
             task_id := some taskId
             created_at := now }]
        else []
      | none => []
    else []

/-- Result of `handleDeleteTask`: the Data Service's rows, the locally displayed
rows, and whether a failure toast was raised. -/
structure DeleteOutcome where
  remote : List Task
  localTasks : List Task
  failureSurfaced : Bool
deriving DecidableEq, Repr

/-- `handleDeleteTask` (TaskList, `src/unnamed/part_000` lines 401-441): the
remote `.delete().eq('id', taskToDelete.id)` runs first (removing every stored
row with that id); only on success is the list refreshed
(`onTaskUpdate()` / `router.refresh()`), modelled as the local list becoming
the post-delete remote rows.  On failure a destructive toast is shown and the
local list is untouched. -/
def handleDeleteTask (remote localTasks : List Task) (taskToDelete : Task)
    (deleteSucceeds : Bool) : DeleteOutcome :=
  if deleteSucceeds then
    let remoteAfter := remote.filter fun t => !(t.id == taskToDelete.id)
    { remote := remoteAfter, localTasks := remoteAfter, failureSurfaced := false }
  else
    { remote := remote, localTasks := localTasks, failureSurfaced := true }

/-- `isPast(parseISO(d))` (date-fns): the time value is strictly before now. -/
def isPast (now d : Nat) : Bool := decide (d < now)

/-- The filter predicate of `upcomingTasks` (`src/unnamed/part_002` lines 513-516):
`task.due_date && !isPast(parseISO(task.due_date)) && task.status !== 'completed'`. -/
def upcomingFilter (now : Nat) (t : Task) : Bool :=
  match t.due_date with
  | none => false
  | some d => !(isPast now d) && !(t.status == "completed")

/-- Sort key of the `upcomingTasks` comparator
(`parseISO(a.due_date).getTime() - parseISO(b.due_date).getTime()`); the
`getD 0` default matches the comparator's `return 0` guard for a missing date,
which is unreachable after the filter. -/
def dueKey (t : Task) : Nat := t.due_date.getD 0

/-- Order relation of the `upcomingTasks` sort. -/
def dueLE (a b : Task) : Prop := dueKey a ≤ dueKey b

instance : DecidableRel dueLE := fun a b => Nat.decLe (dueKey a) (dueKey b)

instance : IsTotal Task dueLE := ⟨fun a b => Nat.le_total (dueKey a) (dueKey b)⟩

instance : IsTrans Task dueLE := ⟨fun _ _ _ => Nat.le_trans⟩

/-- `upcomingTasks` (`src/unnamed/part_002` lines 513-520):
filter, sort ascending by due date (a stable sort models the JS array sort),
then `.slice(0, 5)`. -/
def upcomingTasks (now : Nat) (tasks : List Task) : List Task :=
  (List.insertionSort dueLE (tasks.filter (upcomingFilter now))).take 5

/-! ### Helper lemmas -/

/-- `markReadFn` is idempotent on a single record. -/
theorem markReadFn_idem (nid : String) (n : Notification) :
    markReadFn nid (markReadFn nid n) = markReadFn nid n := by
  unfold markReadFn
  cases h : n.id == nid <;> simp [h]

/-- After mapping `markReadFn nid`, every record whose id matches is read. -/
theorem all_markRead_read (nid : String) (l : List Notification) :
    ((l.map (markReadFn nid)).all fun n => !(n.id == nid) || n.read) = true := by
  induction l with
  | nil => rfl
  | cons n t ih =>
    cases h : n.id == nid <;> simp [markReadFn, h, ih]

/-- Setting every record read leaves no unread record to filter. -/
theorem filter_unread_markAll (l : List Notification) :
    ((l.map fun n => { n with read := true }).filter fun n => !n.read) = [] := by
  induction l with
  | nil => rfl
  | cons n t ih => simp [ih]

/-- Setting every record read makes `all read` true. -/
theorem all_read_markAll (l : List Notification) :
    ((l.map fun n => { n with read := true }).all fun n => n.read) = true := by
  induction l with
  | nil => rfl
  | cons n t ih => simp [ih]

/-- Counting identity for one `markAsRead`: the unread records remaining after
the map, plus the unread records whose id matched (and were flipped), are
exactly the unread records before. -/
theorem unread_after_markRead (nid : String) (l : List Notification) :
    ((l.map (markReadFn nid)).filter fun n => !n.read).length
      + (l.filter fun n => n.id == nid && !n.read).length
      = (l.filter fun n => !n.read).length := by
  induction l with
  | nil => rfl
  | cons n t ih =>
    cases h : n.id == nid <;> cases hr : n.read <;>
      simp [markReadFn, h, hr, List.filter_cons] <;> omega

/-- A filter and its complement split the length of a list. -/
theorem filter_length_split {α : Type} (p : α → Bool) (l : List α) :
    (l.filter p).length + (l.filter fun a => !(p a)).length = l.length := by
  induction l with
  | nil => rfl
  | cons a t ih =>
    cases h : p a <;> simp [List.filter_cons, h] <;> omega

/-! ### Claim theorems -/

/-- Claim C2: `markRead(id)` is idempotent: after calling it twice (both remote
updates succeeding), the collection equals the one after a single call, every
record with that id has read flag true, and the unread aggregate is clamped at
zero (it equals `max 0 (count - 2)`, hence never below zero). -/
theorem c2_markAsRead_idempotent (nid : String) (s : SyncState) :
    (markAsRead nid .ok (markAsRead nid .ok s)).notifications =
      (markAsRead nid .ok s).notifications ∧
    ((markAsRead nid .ok (markAsRead nid .ok s)).notifications.all
      fun n => !(n.id == nid) || n.read) = true ∧
    0 ≤ (markAsRead nid .ok (markAsRead nid .ok s)).unreadCount ∧
    (markAsRead nid .ok (markAsRead nid .ok s)).unreadCount =
      max 0 (s.unreadCount - 2) := by
  refine ⟨?_, ?_, ?_, ?_⟩
  · show (s.notifications.map (markReadFn nid)).map (markReadFn nid)
        = s.notifications.map (markReadFn nid)
    rw [List.map_map]
    exact List.map_congr_left fun n _ => markReadFn_idem nid n
  · exact all_markRead_read nid (s.notifications.map (markReadFn nid))
  · show 0 ≤ max 0 (max 0 (s.unreadCount - 1) - 1)
    omega
  · show max 0 (max 0 (s.unreadCount - 1) - 1) = max 0 (s.unreadCount - 2)
    omega

/-- Claim C3 counterexample: the claim says that after a failed `markRead` the
local record's read flag is still true (optimistic update kept).  At the
concrete state holding the single unread record with id "1", a `markAsRead "1"`
whose remote update fails leaves the flag false. -/
theorem c3_counterexample :
    ¬ (((markAsRead "1" .error
          ⟨[⟨"1", "m", false, "c", "t", none⟩], 1⟩).notifications.all
        fun n => n.read) = true) := by
  decide

/-- Claim C3 amended: `markRead`/`markAllRead` are not optimistic: the remote
update is issued first and the local collection and aggregate are mutated only
when it succeeds; when the remote update fails the local state is left entirely
unchanged (so there is nothing to roll back) and the failure is only logged. -/
theorem c3_remote_update_first (nid : String) (u : Option User) (s : SyncState) :
    markAsRead nid .error s = s ∧
    markAllAsRead u .error s = s ∧
    ((markAsRead nid .ok s).notifications.all fun n => !(n.id == nid) || n.read)
      = true ∧
    (markAsRead nid .ok s).unreadCount = max 0 (s.unreadCount - 1) := by
  refine ⟨rfl, ?_, all_markRead_read nid s.notifications, rfl⟩
  cases u <;> rfl

/-- Claim C4: a push-delivered record is prepended at the front of the ordered
collection with no de-duplication check (the equations hold for every prior
state, also when a record with the same id is already present), all existing
entries keep their relative order (they are the unchanged tail), and the unread
aggregate increments by exactly one, unconditionally. -/
theorem c4_applyRemoteInsert_spec (r : Notification) (s : SyncState) :
    (applyRemoteInsert r s).notifications = r :: s.notifications ∧
    (applyRemoteInsert r s).unreadCount = s.unreadCount + 1 :=
  ⟨rfl, rfl⟩

/-- Claim C5: `initialize` returns NotAuthenticated with the state untouched
when no user is present; otherwise the built request is a newest-first
(`created_at` descending) page capped at 20 rows of the `notifications` table
filtered to the user; on success the entire local collection is replaced and
the aggregate recomputed by scanning; on Data Service failure the prior state
is left exactly intact and the failure is surfaced. -/
theorem c5_fetchNotifications_spec (u : User) (data : List Notification)
    (resp : FetchResponse) (s : SyncState) :
    fetchNotifications none resp s = (s, .notAuthenticated) ∧
    fetchNotifications (some u) .error s = (s, .serviceError) ∧
    fetchNotifications (some u) (.ok data) s =
      ({ notifications := data, unreadCount := countUnread data }, .ok) ∧
    fetchRequest u =
      { table := "notifications", filterUserIdEq := u.id,
        orderByCreatedAtAscending := false, rowLimit := 20 } :=
  ⟨rfl, rfl, rfl, rfl⟩

/-- Claim C8: after a successful `markAllRead` every record is read, the unread
aggregate is zero, and filtering for unread records yields the empty list; in
the concrete scenario, initializing with records id "1" unread and id "2" read
gives unread count 1, and `markAllRead` then gives count 0 with both read. -/
theorem c8_markAllAsRead_spec (u : User) (s : SyncState) :
    ((markAllAsRead (some u) .ok s).notifications.all fun n => n.read) = true ∧
    (markAllAsRead (some u) .ok s).unreadCount = 0 ∧
    ((markAllAsRead (some u) .ok s).notifications.filter fun n => !n.read) = [] ∧
    (fetchNotifications (some u)
        (.ok [⟨"1", "m1", false, "c1", "t", none⟩, ⟨"2", "m2", true, "c2", "t", none⟩])
        initialState).1.unreadCount = 1 ∧
    (markAllAsRead (some u) .ok
        (fetchNotifications (some u)
          (.ok [⟨"1", "m1", false, "c1", "t", none⟩, ⟨"2", "m2", true, "c2", "t", none⟩])
          initialState).1) =
      ⟨[⟨"1", "m1", true, "c1", "t", none⟩, ⟨"2", "m2", true, "c2", "t", none⟩], 0⟩ :=
  ⟨all_read_markAll s.notifications, rfl, filter_unread_markAll s.notifications,
    rfl, rfl⟩

/-- Claim C6: completing a task (`status = "completed"`) whose creator differs
from the acting user inserts exactly one notification row owned by the creator,
referencing the task, unread, tagged `task_completed`; when the acting user is
the creator, no row is inserted.  (The source guard also requires a non-empty
`created_by`, its JS truthiness check.) -/
theorem c6_updateTaskStatus_notifies (user : User) (tasks : List Task)
    (task : Task) (taskId now : String)
    (hfind : (tasks.find? fun t => t.id == taskId) = some task) :
    (task.created_by ≠ "" → task.created_by ≠ user.id →
      updateTaskStatus user tasks taskId "completed" now .ok =
        [{ user_id := task.created_by
           message := completionMessage user task.title
           type := "task_completed"
           read := false
           task_id := some taskId
           created_at := now }]) ∧
    (task.created_by = user.id →
      updateTaskStatus user tasks taskId "completed" now .ok = []) := by
  constructor
  · intro h1 h2
    simp [updateTaskStatus, hfind, h1, h2]
  · intro h
    simp [updateTaskStatus, hfind, h]

/-- Witness for C6 at a concrete task and user. -/
theorem c6_witness :
    updateTaskStatus ⟨"u1", "e", "Alice", "user"⟩
        [⟨"t1", "Ship it", "in_progress", "creator1", some "u1", none⟩]
        "t1" "completed" "2025-01-01" .ok =
      [{ user_id := "creator1"
         message := completionMessage ⟨"u1", "e", "Alice", "user"⟩ "Ship it"
         type := "task_completed"
         read := false
         task_id := some "t1"
         created_at := "2025-01-01" }] :=
  (c6_updateTaskStatus_notifies ⟨"u1", "e", "Alice", "user"⟩
      [⟨"t1", "Ship it", "in_progress", "creator1", some "u1", none⟩]
      ⟨"t1", "Ship it", "in_progress", "creator1", some "u1", none⟩
      "t1" "2025-01-01" (by decide)).1 (by decide) (by decide)

/-- Claim C7: the remote delete runs first; only when it succeeds does the
local list change, and then (assuming the local list mirrors the stored rows
and the id occurs exactly once) exactly one entry is removed — the result is
the id-filtered list, one shorter, and a sublist of the original, so all other
entries keep their relative order; when the remote delete fails, the local
list is untouched and the failure is surfaced for display. -/
theorem c7_handleDeleteTask_spec (remote localTasks : List Task) (task : Task)
    (hsync : localTasks = remote)
    (hunique : (localTasks.filter fun t => t.id == task.id).length = 1) :
    (handleDeleteTask remote localTasks task false).localTasks = localTasks ∧
    (handleDeleteTask remote localTasks task false).remote = remote ∧
    (handleDeleteTask remote localTasks task false).failureSurfaced = true ∧
    (handleDeleteTask remote localTasks task true).localTasks =
      (localTasks.filter fun t => !(t.id == task.id)) ∧
    (handleDeleteTask remote localTasks task true).localTasks.length + 1 =
      localTasks.length ∧
    (handleDeleteTask remote localTasks task true).localTasks.Sublist
      localTasks ∧
    (handleDeleteTask remote localTasks task true).failureSurfaced = false := by
  subst hsync
  refine ⟨rfl, rfl, rfl, rfl, ?_, ?_, rfl⟩
  · have hsplit := filter_length_split (fun t => t.id == task.id) localTasks
    show (localTasks.filter fun t => !(t.id == task.id)).length + 1
        = localTasks.length
    omega
  · exact List.filter_sublist localTasks

/-- Witness for C7 at a concrete two-element list. -/
theorem c7_witness :
    (handleDeleteTask
        [⟨"a", "A", "todo", "u", none, none⟩, ⟨"b", "B", "todo", "u", none, none⟩]
        [⟨"a", "A", "todo", "u", none, none⟩, ⟨"b", "B", "todo", "u", none, none⟩]
        ⟨"a", "A", "todo", "u", none, none⟩ true).localTasks =
      [⟨"b", "B", "todo", "u", none, none⟩] := by
  have h := (c7_handleDeleteTask_spec
      [⟨"a", "A", "todo", "u", none, none⟩, ⟨"b", "B", "todo", "u", none, none⟩]
      [⟨"a", "A", "todo", "u", none, none⟩, ⟨"b", "B", "todo", "u", none, none⟩]
      ⟨"a", "A", "todo", "u", none, none⟩ rfl (by decide)).2.2.2.1
  rw [h]
  decide

/-- Guard under which a local mutation keeps the derived count consistent:
a successful `markRead(id)` must find exactly one unread record with that id
(this is what the UI guarantees: `handleNotificationClick` only calls
`markAsRead` on an unread notification, and ids are unique). -/
def guardOK (s : SyncState) : LocalOp → Prop
  | .lMarkRead nid .ok =>
      (s.notifications.filter fun n => n.id == nid && !n.read).length = 1
  | _ => True

/-- A run of local mutations in which every step satisfies its guard. -/
def validRun (u : User) : SyncState → List LocalOp → Prop
  | _, [] => True
  | s, o :: os => guardOK s o ∧ validRun u (applyLocalOp u o s) os

/-- One guarded local mutation preserves the derived-count invariant. -/
theorem unreadInv_step (u : User) (o : LocalOp) (s : SyncState)
    (hinv : unreadInv s) (hg : guardOK s o) : unreadInv (applyLocalOp u o s) := by
  cases o with
  | lMarkRead nid resp =>
    cases resp with
    | error => exact hinv
    | ok =>
      have hA := unread_after_markRead nid s.notifications
      have hg' : (s.notifications.filter fun n => n.id == nid && !n.read).length
          = 1 := hg
      unfold unreadInv countUnread at hinv ⊢
      show max 0 (s.unreadCount - 1)
          = (((s.notifications.map (markReadFn nid)).filter
              fun n => !n.read).length : Nat)
      omega
  | lMarkAll resp =>
    cases resp with
    | error => exact hinv
    | ok =>
      simp only [applyLocalOp, markAllAsRead, unreadInv, countUnread]
      rw [filter_unread_markAll]
      rfl

/-- A guarded run of local mutations preserves the derived-count invariant. -/
theorem unreadInv_run (u : User) (ops : List LocalOp) (s : SyncState)
    (hinv : unreadInv s) (hrun : validRun u s ops) :
    unreadInv (applyLocalOps u ops s) := by
  induction ops generalizing s with
  | nil => exact hinv
  | cons o os ih =>
    obtain ⟨hg, hrest⟩ := hrun
    exact ih (applyLocalOp u o s) (unreadInv_step u o s hinv hg) hrest

/-- Claim C1 counterexample: the claim asserts the derived count matches the
scan after EVERY sequence of local mutations.  Initializing with two unread
records (ids "1" and "2") and then calling `markRead "1"` twice (both remote
updates succeeding) leaves the stored count 0 while the scan still finds the
unread record "2". -/
theorem c1_counterexample :
    (applyLocalOps ⟨"u", "e", "N", "r"⟩
        [.lMarkRead "1" .ok, .lMarkRead "1" .ok]
        (fetchNotifications (some ⟨"u", "e", "N", "r"⟩)
          (.ok [⟨"1", "m1", false, "c1", "t", none⟩,
                ⟨"2", "m2", false, "c2", "t", none⟩])
          initialState).1).unreadCount ≠
      countUnread (applyLocalOps ⟨"u", "e", "N", "r"⟩
        [.lMarkRead "1" .ok, .lMarkRead "1" .ok]
        (fetchNotifications (some ⟨"u", "e", "N", "r"⟩)
          (.ok [⟨"1", "m1", false, "c1", "t", none⟩,
                ⟨"2", "m2", false, "c2", "t", none⟩])
          initialState).1).notifications := by
  decide

/-- Claim C1 amended: after a successful `initialize` and any sequence of local
mutations in which every successful `markRead(id)` targets exactly one
currently-unread record with that id (the situation the UI guarantees), the
stored unread count equals the count obtained by scanning the collection.
Since the sequence is arbitrary, the invariant holds after every prefix of a
guarded run. -/
theorem c1_unreadCount_invariant_guarded (u : User) (data : List Notification)
    (ops : List LocalOp) (s0 : SyncState)
    (hrun : validRun u (fetchNotifications (some u) (.ok data) s0).1 ops) :
    unreadInv (applyLocalOps u ops
      (fetchNotifications (some u) (.ok data) s0).1) :=
  unreadInv_run u ops (fetchNotifications (some u) (.ok data) s0).1 rfl hrun

/-- Witness for C1 at a concrete guarded run. -/
theorem c1_witness :
    unreadInv (applyLocalOps ⟨"u", "e", "N", "r"⟩ [.lMarkRead "1" .ok]
      (fetchNotifications (some ⟨"u", "e", "N", "r"⟩)
        (.ok [⟨"1", "m1", false, "c1", "t", none⟩]) initialState).1) :=
  c1_unreadCount_invariant_guarded ⟨"u", "e", "N", "r"⟩
    [⟨"1", "m1", false, "c1", "t", none⟩] [.lMarkRead "1" .ok] initialState
    ⟨by unfold guardOK; decide, trivial⟩

/-- Any state-changing operation of the popover, including push inserts. -/
inductive SyncOp where
  | opMarkRead (notificationId : String) (resp : RemoteResult)
  | opMarkAll (user : Option User) (resp : RemoteResult)
  | opInsert (r : Notification)
deriving DecidableEq, Repr

/-- Apply one popover operation. -/
def applySyncOp : SyncOp → SyncState → SyncState
  | .opMarkRead nid resp, s => markAsRead nid resp s
  | .opMarkAll u resp, s => markAllAsRead u resp s
  | .opInsert r, s => applyRemoteInsert r s

/-- Where the entry at position `i` of the prior collection lives afterwards:
an insert prepends, shifting every position by one; the other operations map
in place. -/
def opShift : SyncOp → Nat → Nat
  | .opInsert _, i => i + 1
  | _, i => i

/-- `markReadFn` never changes the id. -/
theorem markReadFn_id (nid : String) (n : Notification) :
    (markReadFn nid n).id = n.id := by
  unfold markReadFn
  split <;> rfl

/-- `markReadFn` never un-reads a record. -/
theorem markReadFn_read_mono (nid : String) (n : Notification)
    (h : n.read = true) : (markReadFn nid n).read = true := by
  unfold markReadFn
  split <;> simp [h]

/-- Claim C9: the read flag is monotone.  For every operation (markRead with
either remote outcome, markAllRead, push insert) and every position in the
collection, the entry that held a record with read flag true still holds a
record with the same id and read flag true afterwards (at the shifted
position). -/
theorem c9_read_flag_monotone (o : SyncOp) (s : SyncState) (i : Nat)
    (h : i < s.notifications.length)
    (hr : (s.notifications.get ⟨i, h⟩).read = true) :
    ∃ h2 : opShift o i < (applySyncOp o s).notifications.length,
      ((applySyncOp o s).notifications.get ⟨opShift o i, h2⟩).id
          = (s.notifications.get ⟨i, h⟩).id ∧
      ((applySyncOp o s).notifications.get ⟨opShift o i, h2⟩).read = true := by
  cases o with
  | opMarkRead nid resp =>
    cases resp with
    | error => exact ⟨h, rfl, hr⟩
    | ok =>
      have h2 : i < (s.notifications.map (markReadFn nid)).length := by
        rw [List.length_map]
        exact h
      refine ⟨h2, ?_, ?_⟩
      · show ((s.notifications.map (markReadFn nid)).get ⟨i, h2⟩).id = _
        simp [markReadFn_id]
      · show ((s.notifications.map (markReadFn nid)).get ⟨i, h2⟩).read = true
        simp only [List.get_eq_getElem, List.getElem_map]
        exact markReadFn_read_mono nid _ hr
  | opMarkAll u resp =>
    cases u with
    | none => exact ⟨h, rfl, hr⟩
    | some u =>
      cases resp with
      | error => exact ⟨h, rfl, hr⟩
      | ok =>
        have h2 : i <
            (s.notifications.map fun n => { n with read := true }).length := by
          rw [List.length_map]
          exact h
        refine ⟨h2, ?_, ?_⟩
        · show ((s.notifications.map fun n : Notification =>
              { n with read := true }).get ⟨i, h2⟩).id = _
          simp
        · show ((s.notifications.map fun n : Notification =>
              { n with read := true }).get ⟨i, h2⟩).read = true
          simp
  | opInsert r =>
    have h2 : i + 1 < (r :: s.notifications).length := by
      simp only [List.length_cons]
      omega
    refine ⟨h2, ?_, ?_⟩
    · show ((r :: s.notifications).get ⟨i + 1, h2⟩).id = _
      simp
    · show ((r :: s.notifications).get ⟨i + 1, h2⟩).read = true
      simpa using hr

/-- Witness for C9: inserting a record in front of a read record keeps it read. -/
theorem c9_witness :
    ((applySyncOp (.opInsert ⟨"2", "m2", false, "c2", "t", none⟩)
        ⟨[⟨"1", "m1", true, "c1", "t", none⟩], 0⟩).notifications.get
      ⟨1, by decide⟩).read = true := by
  obtain ⟨h2, hid, hread⟩ :=
    c9_read_flag_monotone (.opInsert ⟨"2", "m2", false, "c2", "t", none⟩)
      ⟨[⟨"1", "m1", true, "c1", "t", none⟩], 0⟩ 0 (by decide) (by decide)
  exact hread

/-- Claim C10: the upcoming-deadlines list is a pure projection of the fetched
task list: every entry has a due date that is not in the past and a
non-completed status, the list is sorted by ascending due date, and it has at
most 5 entries. -/
theorem c10_upcomingTasks_spec (now : Nat) (tasks : List Task) :
    (∀ t ∈ upcomingTasks now tasks, ∃ d, t.due_date = some d ∧ now ≤ d) ∧
    (∀ t ∈ upcomingTasks now tasks, t.status ≠ "completed") ∧
    List.Sorted dueLE (upcomingTasks now tasks) ∧
    (upcomingTasks now tasks).length ≤ 5 := by
  have hmem : ∀ t ∈ upcomingTasks now tasks, upcomingFilter now t = true := by
    intro t ht
    have h1 : t ∈ List.insertionSort dueLE (tasks.filter (upcomingFilter now)) :=
      List.mem_of_mem_take ht
    have h2 : t ∈ tasks.filter (upcomingFilter now) :=
      (List.perm_insertionSort dueLE _).mem_iff.mp h1
    exact (List.mem_filter.mp h2).2
  refine ⟨?_, ?_, ?_, ?_⟩
  · intro t ht
    have hp := hmem t ht
    unfold upcomingFilter at hp
    cases hd : t.due_date with
    | none => rw [hd] at hp; exact absurd hp (by simp)
    | some d =>
      rw [hd] at hp
      refine ⟨d, rfl, ?_⟩
      have := (Bool.and_eq_true _ _).mp hp
      have hnp : (isPast now d) = false := by
        rcases this with ⟨hleft, _⟩
        cases hip : isPast now d
        · rfl
        · rw [hip] at hleft; exact absurd hleft (by simp)
      unfold isPast at hnp
      have hlt := of_decide_eq_false hnp
      omega
  · intro t ht
    have hp := hmem t ht
    unfold upcomingFilter at hp
    cases hd : t.due_date with
    | none => rw [hd] at hp; exact absurd hp (by simp)
    | some d =>
      rw [hd] at hp
      have := (Bool.and_eq_true _ _).mp hp
      rcases this with ⟨_, hright⟩
      simpa using hright
  · exact (List.sorted_insertionSort dueLE _).sublist
      (List.take_sublist 5 _)
  · exact List.length_take_le 5 _

/-- Witness for C10 at a concrete task list: a past-due task is excluded and
the remaining two are sorted by due date. -/
theorem c10_witness :
    List.Sorted dueLE (upcomingTasks 3
      [⟨"a", "A", "todo", "u", none, some 10⟩,
       ⟨"b", "B", "todo", "u", none, some 5⟩,
       ⟨"c", "C", "todo", "u", none, some 1⟩]) ∧
    (upcomingTasks 3
      [⟨"a", "A", "todo", "u", none, some 10⟩,
       ⟨"b", "B", "todo", "u", none, some 5⟩,
       ⟨"c", "C", "todo", "u", none, some 1⟩]).length ≤ 5 :=
  ⟨(c10_upcomingTasks_spec 3 _).2.2.1, (c10_upcomingTasks_spec 3 _).2.2.2⟩

end TaskApp
